import Mathlib

/-!
Formal model of the veloxid TCP tunnel core: a shallow embedding of the
tunnel protocol and route-worker state machine of the tcp-tunnel
repository (files src/tunnel.rs, src/connection.rs, src/lib.rs,
src/error.rs), together with theorems checking the natural-language
specification against it.

Bytes are Nat values below 256, byte strings are List Nat, machine
words are Nat values reduced modulo 2 ^ 32, instants and durations are
Nat numbers of seconds, and IP addresses are abstracted as Nat.
-/

namespace Veloxid

/-! ## ChaCha20 (the `chacha20` crate: IETF variant, RFC 8439)

96-bit nonce, 32-bit block counter starting at 0.  The block function is
embedded in full so that concrete keystream bytes can be evaluated. -/

/-- The ChaCha20 word modulus `2 ^ 32`. -/
def U32 : Nat := 4294967296

/-- Addition modulo `2 ^ 32`. -/
def add32 (a b : Nat) : Nat := (a + b) % U32

/-- Left rotation of a 32-bit word by `n` bits. -/
def rotl32 (x n : Nat) : Nat := ((x <<< n) % U32) ||| ((x % U32) >>> (32 - n))

/-- One ChaCha quarter round acting on state words `ia ib ic id`. -/
def quarterRound (s : List Nat) (ia ib ic id : Nat) : List Nat :=
  let a0 := s.getD ia 0
  let b0 := s.getD ib 0
  let c0 := s.getD ic 0
  let d0 := s.getD id 0
  let a1 := add32 a0 b0
  let d1 := rotl32 (d0 ^^^ a1) 16
  let c1 := add32 c0 d1
  let b1 := rotl32 (b0 ^^^ c1) 12
  let a2 := add32 a1 b1
  let d2 := rotl32 (d1 ^^^ a2) 8
  let c2 := add32 c1 d2
  let b2 := rotl32 (b1 ^^^ c2) 7
  (((s.set ia a2).set ib b2).set ic c2).set id d2

/-- One ChaCha double round: four column rounds then four diagonal rounds. -/
def doubleRound (s : List Nat) : List Nat :=
  let s1 := quarterRound s 0 4 8 12
  let s2 := quarterRound s1 1 5 9 13
  let s3 := quarterRound s2 2 6 10 14
  let s4 := quarterRound s3 3 7 11 15
  let s5 := quarterRound s4 0 5 10 15
  let s6 := quarterRound s5 1 6 11 12
  let s7 := quarterRound s6 2 7 8 13
  quarterRound s7 3 4 9 14

/-- Assemble a 32-bit word from four bytes, little endian. -/
def leWord (b0 b1 b2 b3 : Nat) : Nat :=
  b0 + b1 * 256 + b2 * 65536 + b3 * 16777216

/-- Split a 32-bit word into four bytes, little endian. -/
def wordBytes (w : Nat) : List Nat :=
  [w % 256, w / 256 % 256, w / 65536 % 256, w / 16777216 % 256]

/-- Group a byte string into 32-bit little-endian words. -/
def bytesToWords : List Nat → List Nat
  | b0 :: b1 :: b2 :: b3 :: rest => leWord b0 b1 b2 b3 :: bytesToWords rest
  | _ => []

/-- The initial ChaCha20 state: four constants, eight key words, the
32-bit block counter, three nonce words. -/
def chachaInit (key : List Nat) (counter : Nat) (nonce : List Nat) : List Nat :=
  [1634760805, 857760878, 2036477234, 1797285236]
    ++ bytesToWords key ++ [counter % U32] ++ bytesToWords nonce

/-- The 64-byte ChaCha20 keystream block for a given key, counter and
nonce: ten double rounds, then addition of the initial state, serialized
little endian. -/
def chachaBlock (key : List Nat) (counter : Nat) (nonce : List Nat) : List Nat :=
  let s0 := chachaInit key counter nonce
  let s := doubleRound^[10] s0
  ((s.zip s0).map fun p => wordBytes (add32 p.1 p.2)).flatten

/-- Byte `i` of the ChaCha20 keystream for a key and nonce (the counter
starts at 0, so byte `i` lives in block `i / 64`). -/
def keystreamByte (key nonce : List Nat) (i : Nat) : Nat :=
  (chachaBlock key (i / 64) nonce).getD (i % 64) 0

/-- A ChaCha20 cipher instance as held by the Rust code: the key, the
nonce, and the current keystream position in bytes. -/
structure ChaCha20 where
  key : List Nat
  nonce : List Nat
  pos : Nat
  deriving DecidableEq, Repr

/-- The constructor `ChaCha20::new(&secret.into(), &nonce.into())`: a
fresh cipher instance at keystream position 0 (block counter 0). -/
def ChaCha20.new (key nonce : List Nat) : ChaCha20 := ⟨key, nonce, 0⟩

/-- XOR a byte string with the keystream of `(key, nonce)` starting at
position `pos`. -/
def applyBytes (key nonce : List Nat) (pos : Nat) : List Nat → List Nat
  | [] => []
  | b :: rest => (b ^^^ keystreamByte key nonce pos) :: applyBytes key nonce (pos + 1) rest

/-- The operation `cipher.apply_keystream(buf)`: XOR the next
`buf.length` keystream bytes into the buffer and advance the position by
`buf.length`.  The in-place mutation is modelled by returning the
advanced cipher next to the new buffer contents. -/
def ChaCha20.apply_keystream (c : ChaCha20) (buf : List Nat) : ChaCha20 × List Nat :=
  (⟨c.key, c.nonce, c.pos + buf.length⟩, applyBytes c.key c.nonce c.pos buf)

/-! ## Errors (src/error.rs) -/

/-- The variants of the `TunnelError` enum in src/error.rs. -/
inductive TunnelError
  | SecretMismatch (ip : Nat)
  | SecretRejected
  | Timeout (ip : Nat)
  | NonceEarlyEOF
  | ConnAttemptFromBannedIP
  deriving DecidableEq, Repr

/-- The error kinds of `std::io::Error` the worker loop distinguishes. -/
inductive IOErrorKind
  | connectionRefused
  | unexpectedEof
  | other
  deriving DecidableEq, Repr

/-- An `anyhow::Error` as seen by the tunnel and the worker loop: either
a propagated I/O error (with its kind), a `TunnelError`, or anything
else. -/
inductive ConnError
  | io (kind : IOErrorKind)
  | tunnel (e : TunnelError)
  | other
  deriving DecidableEq, Repr

/-! ## The Tunnel object and its handshake (src/tunnel.rs) -/

/-- The `Tunnel` struct of src/tunnel.rs.  The `tunnel_read` and
`tunnel_write` socket halves are not data; the model tracks the bytes
that cross them as explicit traces instead. -/
structure Tunnel where
  nonce : List Nat
  secret : List Nat
  is_inbound : Bool
  deriving DecidableEq, Repr

/-- The byte string `b"AUTH"`. -/
def authToken : List Nat := [65, 85, 84, 72]

/-- The environment of one inbound `Tunnel::init` run (src/tunnel.rs
lines 32-55): what the operating system and the peer do at each
suspension point.
* `nonce` is the value returned by `generate_random_nonce()`;
* `nonceWrite` is the result of `stream.write(&nonce)`: `none` for an
  I/O error, `some n` when the write accepted `n` bytes (the code
  ignores this count);
* `authRead` is the result of `timeout(AUTH_TIMEOUT,
  stream.read_exact(&mut auth))`: `none` when the timer elapses,
  `some none` for a read error, `some (some a)` for 4 received bytes;
* `mismatchWriteOk` tells whether `stream.write_u8(2u8)` succeeds;
* `peerAddr` is the result of `stream.peer_addr()`, `none` meaning the
  call fails with an I/O error. -/
structure InboundEnv where
  nonce : List Nat
  nonceWrite : Option Nat
  authRead : Option (Option (List Nat))
  mismatchWriteOk : Bool
  peerAddr : Option Nat
  deriving DecidableEq, Repr

/-- Inbound `Tunnel::init` (src/tunnel.rs lines 32-55 and 84-92): send
the nonce with a plain `write`, read 4 auth bytes under a 5-second
timeout, decrypt with a fresh cipher, verify against `b"AUTH"`, and on
mismatch send the byte `0x02` and fail with `SecretMismatch`.  Returns
the wire trace written by this side together with the result. -/
def Tunnel.init_inbound (secret : List Nat) (env : InboundEnv) :
    List Nat × Except ConnError Tunnel :=
  match env.nonceWrite with
  | none => ([], .error (.io .other))
  | some n =>
    let sent := env.nonce.take n
    match env.authRead with
    | none =>
      match env.peerAddr with
      | some ip => (sent, .error (.tunnel (.Timeout ip)))
      | none => (sent, .error (.io .other))
    | some none => (sent, .error (.io .other))
    | some (some auth) =>
      if applyBytes secret env.nonce 0 auth = authToken then
        (sent, .ok ⟨env.nonce, secret, true⟩)
      else
        if env.mismatchWriteOk then
          match env.peerAddr with
          | some ip => (sent ++ [2], .error (.tunnel (.SecretMismatch ip)))
          | none => (sent ++ [2], .error (.io .other))
        else (sent, .error (.io .other))

/-- The result of `timeout(NONCE_TIMEOUT, stream.read_exact(&mut nonce))`
on the outbound side: the timer elapsed, the read failed with an I/O
error of some kind, or 12 bytes arrived. -/
inductive NonceReadRes
  | elapsed
  | fail (kind : IOErrorKind)
  | ok (bytes : List Nat)
  deriving DecidableEq, Repr

/-- The environment of one outbound `Tunnel::init` run (src/tunnel.rs
lines 56-81):
* `nonceRead` is the result of the 12-byte nonce read under its timeout;
* `authWrite` is the result of `stream.write(&auth)`: `none` for an I/O
  error, `some m` when the write accepted `m` bytes (count ignored);
* `startRead` is the result of `stream.read_u8()`: the starting byte, or
  `none` for an I/O error;
* `peerAddr` as in `InboundEnv`. -/
structure OutboundEnv where
  nonceRead : NonceReadRes
  authWrite : Option Nat
  startRead : Option Nat
  peerAddr : Option Nat
  deriving DecidableEq, Repr

/-- Outbound `Tunnel::init` (src/tunnel.rs lines 56-81 and 84-92): read
the 12-byte nonce under a 5-second timeout (early EOF gives
`NonceEarlyEOF`, an elapsed timer gives `Timeout`), encrypt `b"AUTH"`
with a fresh cipher and send it with a plain `write`, then read one
starting byte; the byte `0x02` means `SecretRejected`, anything else
means the tunnel is ready. -/
def Tunnel.init_outbound (secret : List Nat) (env : OutboundEnv) :
    List Nat × Except ConnError Tunnel :=
  match env.nonceRead with
  | .elapsed =>
    match env.peerAddr with
    | some ip => ([], .error (.tunnel (.Timeout ip)))
    | none => ([], .error (.io .other))
  | .fail kind =>
    if kind = .unexpectedEof then ([], .error (.tunnel .NonceEarlyEOF))
    else ([], .error (.io kind))
  | .ok nonce =>
    let auth := applyBytes secret nonce 0 authToken
    match env.authWrite with
    | none => ([], .error (.io .other))
    | some m =>
      let sent := auth.take m
      match env.startRead with
      | none => (sent, .error (.io .other))
      | some b =>
        if b = 2 then (sent, .error (.tunnel .SecretRejected))
        else (sent, .ok ⟨nonce, secret, false⟩)

/-! ## The relay engine (src/tunnel.rs lines 94-205) -/

/-- One result of `read_stream.read(&mut buffer)` as consumed by the
copy loop: a chunk of freshly read bytes (the empty chunk is EOF), or an
I/O error. -/
inductive ReadRes
  | bytes (bs : List Nat)
  | ioErr
  deriving DecidableEq, Repr

/-- How one copy direction ended: clean EOF (the write side of the
destination was shut down and the task returned `Ok(())`), an I/O
error, or still waiting on the next read (the trace ran out). -/
inductive RWOutcome
  | okShutdown
  | ioError
  | pending
  deriving DecidableEq, Repr

/-- The `for cipher in &mut ciphers { cipher.apply_keystream(...) }`
loop: apply every cipher of the list, in order, to the buffer, each
advancing independently. -/
def applyCiphers : List ChaCha20 → List Nat → List ChaCha20 × List Nat
  | [], buf => ([], buf)
  | c :: cs, buf =>
    let step := c.apply_keystream buf
    let rest := applyCiphers cs step.2
    (step.1 :: rest.1, rest.2)

/-- The copy loop `Tunnel::read_write` (src/tunnel.rs lines 182-205)
run against a trace of read results.  `writeOk i` tells whether the
`write_all` of iteration `i` succeeds, `shutdownOk` whether the
`shutdown` on EOF succeeds.  Returns the chunks actually written to the
destination and how the loop ended. -/
def Tunnel.read_write (writeOk : Nat → Bool) (shutdownOk : Bool) :
    Nat → List ChaCha20 → List ReadRes → List (List Nat) × RWOutcome
  | _, _, [] => ([], .pending)
  | _, _, .ioErr :: _ => ([], .ioError)
  | _, _, .bytes [] :: _ => ([], if shutdownOk then .okShutdown else .ioError)
  | i, ciphers, .bytes (b :: bs) :: rest =>
    let step := applyCiphers ciphers (b :: bs)
    if writeOk i then
      let next := Tunnel.read_write writeOk shutdownOk (i + 1) step.1 rest
      (step.2 :: next.1, next.2)
    else ([], .ioError)

/-- The cipher vectors built by `Tunnel::join` (src/tunnel.rs lines
104-120): four fresh instances, the pair `[self_read_cipher,
other_write_cipher]` handed to the self-to-other copy task and the pair
`[other_read_cipher, self_write_cipher]` handed to the other-to-self
copy task. -/
def Tunnel.join_ciphers (self other : Tunnel) : List ChaCha20 × List ChaCha20 :=
  let self_read_cipher := ChaCha20.new self.secret self.nonce
  let self_write_cipher := ChaCha20.new self.secret self.nonce
  let other_read_cipher := ChaCha20.new other.secret other.nonce
  let other_write_cipher := ChaCha20.new other.secret other.nonce
  ([self_read_cipher, other_write_cipher], [other_read_cipher, self_write_cipher])

/-- The two copy directions of a relay call. -/
inductive Dir
  | selfToOther
  | otherToSelf
  deriving DecidableEq, Repr

/-- The sibling of a direction. -/
def Dir.flip : Dir → Dir
  | .selfToOther => .otherToSelf
  | .otherToSelf => .selfToOther

set_option linter.unusedVariables false in
/-- The `tokio::select!` block shared verbatim by `Tunnel::join` (lines
123-126), `Tunnel::run` (lines 157-160) and `Tunnel::proxy` (lines
173-176): whichever spawned copy task finishes first, the sibling is
aborted and the surrounding function falls through to `Ok(())`.
`winner` is the direction that finished first and `res` is that task's
result, which the select arms discard.  Returns the aborted direction
and the value the surrounding function returns. -/
def Tunnel.select_manage (winner : Dir) (res : List (List Nat) × RWOutcome) :
    Dir × Except ConnError Unit :=
  (winner.flip, .ok ())

/-- The result of `Tunnel::join` (src/tunnel.rs lines 95-129):
propagate an error from either readiness-byte write, otherwise run the
select block and return its value.  `selfStartOk` and `otherStartOk`
tell whether the `write_u8(1u8)` calls succeed. -/
def Tunnel.join_result (self other : Tunnel) (selfStartOk otherStartOk : Bool)
    (winner : Dir) (res : List (List Nat) × RWOutcome) : Except ConnError Unit :=
  if self.is_inbound && !selfStartOk then .error (.io .other)
  else if other.is_inbound && !otherStartOk then .error (.io .other)
  else (Tunnel.select_manage winner res).2

/-- The result of `Tunnel::run` (src/tunnel.rs lines 132-163), as
`Tunnel.join_result` but with a single readiness-byte write. -/
def Tunnel.run_result (self : Tunnel) (selfStartOk : Bool)
    (winner : Dir) (res : List (List Nat) × RWOutcome) : Except ConnError Unit :=
  if self.is_inbound && !selfStartOk then .error (.io .other)
  else (Tunnel.select_manage winner res).2

/-- The result of `Tunnel::proxy` (src/tunnel.rs lines 166-179): no
handshake bytes, just the select block. -/
def Tunnel.proxy_result (winner : Dir) (res : List (List Nat) × RWOutcome) :
    Except ConnError Unit :=
  (Tunnel.select_manage winner res).2

/-! ## Endpoint binder and route worker loop (src/connection.rs) -/

/-- Timeout constant `CONNREF_TIMEOUT` from src/connection.rs, in
seconds. -/
def CONNREF_TIMEOUT : Nat := 5

/-- Timeout constant `SECRET_REJECTED_TIMEOUT` from src/connection.rs,
in seconds. -/
def SECRET_REJECTED_TIMEOUT : Nat := 30

/-- Timeout constant `NONCE_EARLY_EOF_TIMEOUT` from src/connection.rs,
in seconds. -/
def NONCE_EARLY_EOF_TIMEOUT : Nat := 15

/-- Ban duration `BAN_LENGTH` from src/connection.rs: 60 * 5 seconds. -/
def BAN_LENGTH : Nat := 60 * 5

/-- The tunnel-mode inbound arm of `connect` (src/connection.rs lines
82-89): after `accept`, look the peer's IP up in the ban list; a ban
entry that still lies in the future fails the attempt with
`ConnAttemptFromBannedIP` before the handshake touches the stream,
otherwise the inbound handshake runs.  `banLookup` is the ban-list
entry for the peer's IP, `now` the current instant, `env` the stream
environment of the would-be handshake. -/
def connect_inbound (secret : List Nat) (banLookup : Option Nat) (now : Nat)
    (env : InboundEnv) : List Nat × Except ConnError Tunnel :=
  match banLookup with
  | some time => if now < time then ([], .error (.tunnel .ConnAttemptFromBannedIP))
    else Tunnel.init_inbound secret env
  | none => Tunnel.init_inbound secret env

/-- An observable side effect of the worker loop's error handling. -/
inductive Action
  | dropPrev
  | sleepFor (secs : Nat)
  | banInsert (ip : Nat) (expiry : Nat)
  deriving DecidableEq, Repr

/-- The per-kind recovery policy of the worker loop (the two identical
error arms of `start_connection`, src/connection.rs lines 126-159 and
164-198): `ConnectionRefused` sleeps `CONNREF_TIMEOUT`,
`SecretRejected` sleeps `SECRET_REJECTED_TIMEOUT`, `NonceEarlyEOF`
sleeps `NONCE_EARLY_EOF_TIMEOUT`, `SecretMismatch` and `Timeout` insert
the peer's IP with expiry `now + BAN_LENGTH` into the ban list, and
every other error just continues. -/
def handle_error (now : Nat) (e : ConnError) : List Action :=
  match e with
  | .io kind => if kind = .connectionRefused then [.sleepFor CONNREF_TIMEOUT] else []
  | .tunnel .SecretRejected => [.sleepFor SECRET_REJECTED_TIMEOUT]
  | .tunnel .NonceEarlyEOF => [.sleepFor NONCE_EARLY_EOF_TIMEOUT]
  | .tunnel (.SecretMismatch ip) => [.banInsert ip (now + BAN_LENGTH)]
  | .tunnel (.Timeout ip) => [.banInsert ip (now + BAN_LENGTH)]
  | .tunnel .ConnAttemptFromBannedIP => []
  | .other => []

/-- The error arm guarding the second `connect` of the worker loop
(src/connection.rs lines 164-198): its first statement is
`drop(ts_a)`, closing the already-obtained first connection, and only
then does the per-kind policy (with its backoff sleeps) run. -/
def handle_second_failure (now : Nat) (e : ConnError) : List Action :=
  Action.dropPrev :: handle_error now e

/-! ## The legacy copy loop (src/lib.rs lines 9-21) -/

/-- The legacy helper `read_write` of src/lib.rs run against a trace of
read results: it keeps a persistent 512-byte buffer, refills its first
`n` bytes on each read, applies the single cipher's keystream to the
entire buffer, and writes only the first `n` bytes; a read of 0 bytes
or a read error breaks the loop (write errors are ignored by the
code).  Returns the chunks written. -/
def lib_read_write (cipher : ChaCha20) (buffer : List Nat) :
    List ReadRes → List (List Nat)
  | [] => []
  | .ioErr :: _ => []
  | .bytes [] :: _ => []
  | .bytes (b :: bs) :: rest =>
    let filled := (b :: bs) ++ buffer.drop (b :: bs).length
    let step := cipher.apply_keystream filled
    step.2.take (b :: bs).length :: lib_read_write step.1 step.2 rest

/-! ## Derived notions used to state the specification claims -/

/-- XOR one byte with the keystream byte of every cipher of a list, each
taken at its own position plus a common offset. -/
def multiXor (ciphers : List ChaCha20) (off : Nat) (b : Nat) : Nat :=
  ciphers.foldl (fun acc c => acc ^^^ keystreamByte c.key c.nonce (c.pos + off)) b

/-- Apply `multiXor` across a byte string, the offset growing by one per
byte. -/
def xorChunk (ciphers : List ChaCha20) : Nat → List Nat → List Nat
  | _, [] => []
  | off, b :: bs => multiXor ciphers off b :: xorChunk ciphers (off + 1) bs

/-- Advance every cipher of a list by `n` keystream bytes. -/
def advanceAll (ciphers : List ChaCha20) (n : Nat) : List ChaCha20 :=
  ciphers.map fun c => ⟨c.key, c.nonce, c.pos + n⟩

/-- The chunks the copy loop is specified to deliver: chunk after chunk,
each byte XORed with every cipher's keystream at the offset the byte has
in the concatenation of all chunks. -/
def expectedWrites (ciphers : List ChaCha20) : Nat → List (List Nat) → List (List Nat)
  | _, [] => []
  | off, chunk :: rest =>
    xorChunk ciphers off chunk :: expectedWrites ciphers (off + chunk.length) rest

/-- An all-zero 32-byte key, used as a concrete test input. -/
def zeroKey : List Nat := List.replicate 32 0

/-- An all-zero 12-byte nonce, used as a concrete test input. -/
def zeroNonce : List Nat := List.replicate 12 0

/-! ## Basic lemmas about keystream application -/

theorem applyBytes_length (k n : List Nat) (p : Nat) (bs : List Nat) :
    (applyBytes k n p bs).length = bs.length := by
  induction bs generalizing p with
  | nil => rfl
  | cons b bs ih => simp [applyBytes, ih]

theorem applyBytes_append (k n : List Nat) (p : Nat) (xs ys : List Nat) :
    applyBytes k n p (xs ++ ys)
      = applyBytes k n p xs ++ applyBytes k n (p + xs.length) ys := by
  induction xs generalizing p with
  | nil => simp [applyBytes]
  | cons x xs ih =>
    simp only [List.cons_append, applyBytes, ih, List.length_cons, List.append_eq]
    congr 3
    omega

theorem applyBytes_involution (k n : List Nat) (p : Nat) (bs : List Nat) :
    applyBytes k n p (applyBytes k n p bs) = bs := by
  induction bs generalizing p with
  | nil => rfl
  | cons b bs ih =>
    simp [applyBytes, ih, Nat.xor_assoc, Nat.xor_self, Nat.xor_zero]

theorem multiXor_nil (off b : Nat) : multiXor [] off b = b := rfl

theorem multiXor_cons (c : ChaCha20) (cs : List ChaCha20) (off b : Nat) :
    multiXor (c :: cs) off b
      = multiXor cs off (b ^^^ keystreamByte c.key c.nonce (c.pos + off)) := rfl

theorem advanceAll_cons (c : ChaCha20) (cs : List ChaCha20) (nn : Nat) :
    advanceAll (c :: cs) nn = ⟨c.key, c.nonce, c.pos + nn⟩ :: advanceAll cs nn := rfl

theorem multiXor_advance (cs : List ChaCha20) (nn off b : Nat) :
    multiXor (advanceAll cs nn) off b = multiXor cs (nn + off) b := by
  induction cs generalizing b with
  | nil => simp [advanceAll, multiXor_nil]
  | cons c cs ih =>
    rw [advanceAll_cons, multiXor_cons, multiXor_cons, ih, Nat.add_assoc]

theorem xorChunk_nil_ciphers (off : Nat) (bs : List Nat) :
    xorChunk [] off bs = bs := by
  induction bs generalizing off with
  | nil => rfl
  | cons b bs ih => simp [xorChunk, multiXor_nil, ih]

theorem xorChunk_cons_cipher (c : ChaCha20) (cs : List ChaCha20) (off : Nat)
    (bs : List Nat) :
    xorChunk (c :: cs) off bs
      = xorChunk cs off (applyBytes c.key c.nonce (c.pos + off) bs) := by
  induction bs generalizing off with
  | nil => rfl
  | cons b bs ih =>
    simp only [xorChunk, applyBytes, multiXor_cons]
    rw [ih, Nat.add_assoc c.pos off 1]

theorem xorChunk_advance (cs : List ChaCha20) (nn off : Nat) (bs : List Nat) :
    xorChunk (advanceAll cs nn) off bs = xorChunk cs (nn + off) bs := by
  induction bs generalizing off with
  | nil => rfl
  | cons b bs ih =>
    simp only [xorChunk, multiXor_advance, ih]
    rw [Nat.add_assoc nn off 1]

/-- The cipher loop of the copy task, characterized: every cipher of
the list advances by the buffer length, and each byte is XORed with
every cipher's keystream at that byte's offset. -/
theorem applyCiphers_eq (cs : List ChaCha20) (buf : List Nat) :
    applyCiphers cs buf = (advanceAll cs buf.length, xorChunk cs 0 buf) := by
  induction cs generalizing buf with
  | nil => simp [applyCiphers, advanceAll, xorChunk_nil_ciphers]
  | cons c cs ih =>
    simp only [applyCiphers, ChaCha20.apply_keystream, ih, applyBytes_length,
      advanceAll, List.map_cons, xorChunk_cons_cipher, Nat.add_zero]

theorem expectedWrites_advance (cs : List ChaCha20) (nn off : Nat)
    (chunks : List (List Nat)) :
    expectedWrites (advanceAll cs nn) off chunks = expectedWrites cs (nn + off) chunks := by
  induction chunks generalizing off with
  | nil => rfl
  | cons ch rest ih =>
    simp only [expectedWrites, xorChunk_advance, ih]
    rw [Nat.add_assoc nn off ch.length]

/-- The copy loop on a trace of nonempty chunks followed by a tail
whose processing writes nothing: the written chunks are exactly the
specified ones and the outcome is the tail's. -/
theorem read_write_chunks (o : RWOutcome) (tail : List ReadRes)
    (htail : ∀ (cs' : List ChaCha20) (i' : Nat),
      Tunnel.read_write (fun _ => true) true i' cs' tail = ([], o))
    (cs : List ChaCha20) (chunks : List (List Nat)) (i : Nat)
    (h : ∀ ch ∈ chunks, ch ≠ []) :
    Tunnel.read_write (fun _ => true) true i cs (chunks.map ReadRes.bytes ++ tail)
      = (expectedWrites cs 0 chunks, o) := by
  induction chunks generalizing cs i with
  | nil => simpa [expectedWrites] using htail cs i
  | cons ch rest ih =>
    obtain ⟨b, bs, rfl⟩ : ∃ b bs, ch = b :: bs := by
      cases ch with
      | nil => exact absurd rfl (h _ (by simp))
      | cons b bs => exact ⟨b, bs, rfl⟩
    have hrest : ∀ ch ∈ rest, ch ≠ [] := fun ch hm => h ch (by simp [hm])
    simp [List.map_cons, List.cons_append, Tunnel.read_write, applyCiphers_eq,
      List.append_eq, ih _ _ hrest, expectedWrites, expectedWrites_advance,
      Nat.add_zero, Nat.zero_add]

/-! ## The specification claims -/

set_option linter.unusedVariables false in
/-- C2: for every 32-byte secret, 12-byte nonce and byte sequence,
applying the keystream of one fresh ChaCha20 instance and then the
keystream of a second, independent fresh instance with the same key and
nonce yields the original sequence. -/
theorem chacha_roundtrip (key nonce p : List Nat)
    (hk : key.length = 32) (hn : nonce.length = 12) :
    ((ChaCha20.new key nonce).apply_keystream
        (((ChaCha20.new key nonce).apply_keystream p).2)).2 = p := by
  simp [ChaCha20.apply_keystream, ChaCha20.new, applyBytes_involution]

/-- Witness for C2 at a concrete key, nonce and plaintext. -/
theorem chacha_roundtrip_witness :
    (List.replicate 32 0).length = 32 ∧ (List.replicate 12 7).length = 12 ∧
      ((ChaCha20.new (List.replicate 32 0) (List.replicate 12 7)).apply_keystream
          (((ChaCha20.new (List.replicate 32 0) (List.replicate 12 7)).apply_keystream
              [1, 2, 3]).2)).2 = [1, 2, 3] :=
  ⟨by simp, by simp, chacha_roundtrip _ _ [1, 2, 3] (by simp) (by simp)⟩

/-- C1: `Tunnel::join` builds four fresh cipher instances, each from its
own tunnel's secret and nonce at keystream position 0; the self-to-other
copy task gets the ordered list [self read cipher, other write cipher]
and the other-to-self copy task gets [other read cipher, self write
cipher]; on every block the first direction applies self's keystream and
then other's keystream, both instances advancing independently by the
block length. -/
theorem join_cipher_order (a b : Tunnel) :
    Tunnel.join_ciphers a b
        = ([ChaCha20.new a.secret a.nonce, ChaCha20.new b.secret b.nonce],
           [ChaCha20.new b.secret b.nonce, ChaCha20.new a.secret a.nonce]) ∧
      ChaCha20.new a.secret a.nonce = ⟨a.secret, a.nonce, 0⟩ ∧
      ∀ bs : List Nat,
        applyCiphers (Tunnel.join_ciphers a b).1 bs
            = ([⟨a.secret, a.nonce, bs.length⟩, ⟨b.secret, b.nonce, bs.length⟩],
               applyBytes b.secret b.nonce 0 (applyBytes a.secret a.nonce 0 bs)) ∧
          applyCiphers (Tunnel.join_ciphers a b).2 bs
            = ([⟨b.secret, b.nonce, bs.length⟩, ⟨a.secret, a.nonce, bs.length⟩],
               applyBytes a.secret a.nonce 0 (applyBytes b.secret b.nonce 0 bs)) := by
  refine ⟨rfl, rfl, fun bs => ⟨?_, ?_⟩⟩ <;>
    simp [Tunnel.join_ciphers, applyCiphers, ChaCha20.apply_keystream, ChaCha20.new,
      applyBytes_length]

set_option linter.unusedVariables false in
/-- C3: the copy loop `Tunnel::read_write` transforms each nonempty
chunk it reads (each at most 8192 bytes) by applying every cipher of its
list in order to exactly those bytes, writes the whole transformed
chunk, finishes with a shutdown of the destination on a 0-byte read,
and returns an I/O error from the read or from the write as soon as one
occurs, writing nothing further. -/
theorem read_write_spec (cs : List ChaCha20) (chunks : List (List Nat)) (i : Nat)
    (hne : ∀ ch ∈ chunks, ch ≠ []) (hsz : ∀ ch ∈ chunks, ch.length ≤ 8192) :
    Tunnel.read_write (fun _ => true) true i cs
        (chunks.map ReadRes.bytes ++ [ReadRes.bytes []])
        = (expectedWrites cs 0 chunks, RWOutcome.okShutdown) ∧
      (∀ rest, Tunnel.read_write (fun _ => true) true i cs
          (chunks.map ReadRes.bytes ++ ReadRes.ioErr :: rest)
          = (expectedWrites cs 0 chunks, RWOutcome.ioError)) ∧
      (∀ ch ∈ chunks, ∀ (j : Nat) (cs' : List ChaCha20) (rest : List ReadRes),
          Tunnel.read_write (fun _ => false) true j cs' (ReadRes.bytes ch :: rest)
            = ([], RWOutcome.ioError)) := by
  refine ⟨read_write_chunks RWOutcome.okShutdown [ReadRes.bytes []]
      (fun cs' i' => rfl) cs chunks i hne,
    fun rest => read_write_chunks RWOutcome.ioError (ReadRes.ioErr :: rest)
      (fun cs' i' => rfl) cs chunks i hne,
    fun ch hch j cs' rest => ?_⟩
  obtain ⟨bh, bt, rfl⟩ : ∃ bh bt, ch = bh :: bt := by
    cases ch with
    | nil => exact absurd rfl (hne _ hch)
    | cons bh bt => exact ⟨bh, bt, rfl⟩
  simp [Tunnel.read_write]

/-- Witness for C3 on two concrete chunks with no ciphers. -/
theorem read_write_spec_witness :
    (∀ ch ∈ ([[5], [6, 7]] : List (List Nat)), ch ≠ []) ∧
      (∀ ch ∈ ([[5], [6, 7]] : List (List Nat)), ch.length ≤ 8192) ∧
      Tunnel.read_write (fun _ => true) true 0 []
          (([[5], [6, 7]] : List (List Nat)).map ReadRes.bytes ++ [ReadRes.bytes []])
          = (expectedWrites [] 0 [[5], [6, 7]], RWOutcome.okShutdown) :=
  ⟨by decide, by decide,
    (read_write_spec [] [[5], [6, 7]] 0 (by decide) (by decide)).1⟩

/-- C4 counterexample: when the first copy direction to finish ended
with an I/O error, `join`, `run` and `proxy` still return `Ok(())`,
contradicting the claim that the call returns with an I/O error in that
case. -/
theorem relay_result_counterexample :
    (Tunnel.select_manage Dir.selfToOther ([], RWOutcome.ioError)).2 = Except.ok () ∧
      Tunnel.join_result ⟨[], [], false⟩ ⟨[], [], false⟩ true true Dir.selfToOther
          ([], RWOutcome.ioError) = Except.ok () ∧
      Tunnel.run_result ⟨[], [], false⟩ true Dir.selfToOther
          ([], RWOutcome.ioError) = Except.ok () ∧
      Tunnel.proxy_result Dir.selfToOther ([], RWOutcome.ioError) = Except.ok () ∧
      RWOutcome.ioError ≠ RWOutcome.okShutdown :=
  ⟨rfl, rfl, rfl, rfl, by decide⟩

/-- C4 amended: each of `join`, `run` and `proxy` waits on whichever
copy direction finishes first and aborts the other, then returns
`Ok(())` regardless of that direction's result (the select arms discard
it); an error is returned only when writing a readiness byte fails
before the tasks are spawned. -/
theorem relay_select_behavior (a b : Tunnel) (winner : Dir)
    (res : List (List Nat) × RWOutcome) :
    Tunnel.select_manage winner res = (winner.flip, Except.ok ()) ∧
      Tunnel.join_result a b true true winner res = Except.ok () ∧
      Tunnel.run_result a true winner res = Except.ok () ∧
      Tunnel.proxy_result winner res = Except.ok () := by
  refine ⟨rfl, ?_, ?_, rfl⟩ <;>
    simp [Tunnel.join_result, Tunnel.run_result, Tunnel.select_manage]

set_option maxRecDepth 1000000 in
/-- C5 counterexample: the handshake writes use a plain `write` whose
accepted byte count is ignored, so a run in which the operating system
accepts only 5 of the 12 nonce bytes proceeds anyway; the inbound side
then puts its next byte (here the `0x02` of a mismatch) on the wire
with only 5 nonce bytes before it, so the nonce write did not deliver
the full buffer and fewer than 12 bytes preceded the next byte. -/
theorem handshake_full_write_counterexample :
    (Tunnel.init_inbound zeroKey
          ⟨zeroNonce, some 5, some (some [0, 0, 0, 0]), true, some 0⟩).1
        = [0, 0, 0, 0, 0, 2] ∧
      zeroNonce.length = 12 ∧
      (Tunnel.init_inbound zeroKey
          ⟨zeroNonce, some 5, some (some [0, 0, 0, 0]), true, some 0⟩).1.take 12
        ≠ zeroNonce := by
  refine ⟨by decide, by decide, by decide⟩

/-- C5 amended: before any other byte, the inbound side issues a single
plain `write` of the 12-byte nonce whose accepted count `n` is not
checked, so the wire carries the first `n` bytes of the nonce followed
by nothing or by the single mismatch byte `0x02`; after reading the
nonce, the outbound side issues a single plain `write` of the 4
encrypted AUTH bytes, the wire carrying the first `m` accepted bytes of
that buffer and nothing else.  Full delivery is exactly the case
`n = 12` (resp. `m = 4`); the code does not enforce it. -/
theorem handshake_write_framing (secret nc : List Nat) (n : Nat)
    (ar : Option (Option (List Nat))) (mw : Bool) (pa : Option Nat) :
    (∃ rest, (Tunnel.init_inbound secret ⟨nc, some n, ar, mw, pa⟩).1
        = nc.take n ++ rest ∧ (rest = [] ∨ rest = [2])) ∧
      ∀ (nonce : List Nat) (m : Nat) (sr pa2 : Option Nat),
        (Tunnel.init_outbound secret ⟨NonceReadRes.ok nonce, some m, sr, pa2⟩).1
          = (applyBytes secret nonce 0 authToken).take m := by
  constructor
  · match ar with
    | none =>
      cases pa <;> exact ⟨[], by simp [Tunnel.init_inbound], Or.inl rfl⟩
    | some none =>
      exact ⟨[], by simp [Tunnel.init_inbound], Or.inl rfl⟩
    | some (some auth) =>
      by_cases hdec : applyBytes secret nc 0 auth = authToken
      · exact ⟨[], by simp [Tunnel.init_inbound, hdec], Or.inl rfl⟩
      · cases mw with
        | false => exact ⟨[], by simp [Tunnel.init_inbound, hdec], Or.inl rfl⟩
        | true =>
          cases pa <;> exact ⟨[2], by simp [Tunnel.init_inbound, hdec], Or.inr rfl⟩
  · intro nonce m sr pa2
    cases sr with
    | none => simp [Tunnel.init_outbound]
    | some b => by_cases hb : b = 2 <;> simp [Tunnel.init_outbound, hb]

/-- Witness for C5 amended at a concrete environment. -/
theorem handshake_write_framing_witness :
    (∃ rest, (Tunnel.init_inbound zeroKey ⟨zeroNonce, some 12, none, true, some 0⟩).1
        = zeroNonce.take 12 ++ rest ∧ (rest = [] ∨ rest = [2])) ∧
      (Tunnel.init_outbound zeroKey
          ⟨NonceReadRes.ok zeroNonce, some 4, some 1, none⟩).1
        = (applyBytes zeroKey zeroNonce 0 authToken).take 4 :=
  ⟨(handshake_write_framing zeroKey zeroNonce 12 none true (some 0)).1,
    (handshake_write_framing zeroKey zeroNonce 12 none true (some 0)).2
      zeroNonce 4 (some 1) none⟩

set_option maxRecDepth 1000000 in
/-- C6: in the inbound handshake, four auth bytes that do not decrypt
to the literal AUTH make the inbound side write the single byte `0x02`
and fail with `SecretMismatch(peer_ip)`, while an elapsed 5-second auth
timeout fails with `Timeout(peer_ip)` and puts no `0x02` on the wire. -/
theorem inbound_auth_failure (secret nc : List Nat) (n ip : Nat)
    (auth : List Nat) (mw : Bool)
    (hmis : applyBytes secret nc 0 auth ≠ authToken) :
    Tunnel.init_inbound secret ⟨nc, some n, some (some auth), true, some ip⟩
        = (nc.take n ++ [2],
           Except.error (ConnError.tunnel (TunnelError.SecretMismatch ip))) ∧
      Tunnel.init_inbound secret ⟨nc, some n, none, mw, some ip⟩
        = (nc.take n, Except.error (ConnError.tunnel (TunnelError.Timeout ip))) := by
  constructor
  · simp [Tunnel.init_inbound, hmis]
  · simp [Tunnel.init_inbound]

set_option maxRecDepth 1000000 in
/-- Witness for C6: with the all-zero key and nonce, the four zero
bytes decrypt to the first keystream block's bytes, not AUTH. -/
theorem inbound_auth_failure_witness :
    applyBytes zeroKey zeroNonce 0 [0, 0, 0, 0] ≠ authToken ∧
      Tunnel.init_inbound zeroKey ⟨zeroNonce, some 12, some (some [0, 0, 0, 0]), true, some 9⟩
        = (zeroNonce.take 12 ++ [2],
           Except.error (ConnError.tunnel (TunnelError.SecretMismatch 9))) :=
  ⟨by decide,
    (inbound_auth_failure zeroKey zeroNonce 12 9 [0, 0, 0, 0] true (by decide)).1⟩

/-- C7: in the outbound handshake, an unexpected EOF inside the nonce
read yields `NonceEarlyEOF`, an elapsed 5-second nonce timeout yields
`Timeout(peer_ip)`, and after the auth write the handshake fails with
`SecretRejected` exactly when the single byte read back is `0x02`; any
other byte value makes `init` return the ready tunnel. -/
theorem outbound_handshake_errors (secret nonce : List Nat) (ip m b : Nat)
    (aw sr pa : Option Nat) :
    Tunnel.init_outbound secret ⟨NonceReadRes.fail IOErrorKind.unexpectedEof, aw, sr, pa⟩
        = ([], Except.error (ConnError.tunnel TunnelError.NonceEarlyEOF)) ∧
      Tunnel.init_outbound secret ⟨NonceReadRes.elapsed, aw, sr, some ip⟩
        = ([], Except.error (ConnError.tunnel (TunnelError.Timeout ip))) ∧
      ((Tunnel.init_outbound secret ⟨NonceReadRes.ok nonce, some m, some b, pa⟩).2
          = Except.error (ConnError.tunnel TunnelError.SecretRejected) ↔ b = 2) ∧
      (b ≠ 2 → (Tunnel.init_outbound secret ⟨NonceReadRes.ok nonce, some m, some b, pa⟩).2
          = Except.ok ⟨nonce, secret, false⟩) := by
  refine ⟨by simp [Tunnel.init_outbound], by simp [Tunnel.init_outbound], ?_, ?_⟩
  · by_cases hb : b = 2 <;> simp [Tunnel.init_outbound, hb]
  · intro hb; simp [Tunnel.init_outbound, hb]

/-- Witness for C7 at concrete environments. -/
theorem outbound_handshake_errors_witness :
    (1 : Nat) ≠ 2 ∧
      (Tunnel.init_outbound zeroKey ⟨NonceReadRes.ok zeroNonce, some 4, some 1, none⟩).2
        = Except.ok ⟨zeroNonce, zeroKey, false⟩ ∧
      Tunnel.init_outbound zeroKey ⟨NonceReadRes.fail IOErrorKind.unexpectedEof, none, none, none⟩
        = ([], Except.error (ConnError.tunnel TunnelError.NonceEarlyEOF)) :=
  ⟨by decide,
    (outbound_handshake_errors zeroKey zeroNonce 0 4 1 none (some 1) none).2.2.2 (by decide),
    (outbound_handshake_errors zeroKey zeroNonce 0 4 1 none none none).1⟩

/-- C8: the worker loop's per-kind recovery: `ConnectionRefused` sleeps
5 seconds, `SecretRejected` 30 seconds, `NonceEarlyEOF` 15 seconds,
`SecretMismatch(ip)` and `Timeout(ip)` insert (ip, now + 5 minutes)
into the ban list with no sleep, every other error continues with no
delay, and on a second-stage failure the already-obtained first
connection is dropped before any backoff action runs. -/
theorem worker_error_policy (now ip : Nat) (e : ConnError) :
    handle_error now (ConnError.io IOErrorKind.connectionRefused) = [Action.sleepFor 5] ∧
      handle_error now (ConnError.tunnel TunnelError.SecretRejected) = [Action.sleepFor 30] ∧
      handle_error now (ConnError.tunnel TunnelError.NonceEarlyEOF) = [Action.sleepFor 15] ∧
      handle_error now (ConnError.tunnel (TunnelError.SecretMismatch ip))
        = [Action.banInsert ip (now + 300)] ∧
      handle_error now (ConnError.tunnel (TunnelError.Timeout ip))
        = [Action.banInsert ip (now + 300)] ∧
      handle_error now (ConnError.io IOErrorKind.other) = [] ∧
      handle_error now (ConnError.io IOErrorKind.unexpectedEof) = [] ∧
      handle_error now (ConnError.tunnel TunnelError.ConnAttemptFromBannedIP) = [] ∧
      handle_error now ConnError.other = [] ∧
      handle_second_failure now e = Action.dropPrev :: handle_error now e := by
  refine ⟨rfl, rfl, rfl, ?_, ?_, ?_, ?_, rfl, rfl, rfl⟩ <;>
    simp [handle_error, BAN_LENGTH]

/-- C9: for an inbound tunnel endpoint whose ban list maps the peer's
IP to expiry `t`, a connect at any instant before `t` fails with
`ConnAttemptFromBannedIP` with nothing read from or written to the
accepted stream (the result does not depend on the stream environment
at all), a connect at or after `t` proceeds to the inbound handshake,
and the expiry inserted on `SecretMismatch` or `Timeout` is the
insertion instant plus 5 minutes. -/
theorem ban_check (secret : List Nat) (t now : Nat) (env : InboundEnv) (ip : Nat) :
    (now < t → connect_inbound secret (some t) now env
        = ([], Except.error (ConnError.tunnel TunnelError.ConnAttemptFromBannedIP))) ∧
      (t ≤ now → connect_inbound secret (some t) now env
        = Tunnel.init_inbound secret env) ∧
      handle_error now (ConnError.tunnel (TunnelError.SecretMismatch ip))
        = [Action.banInsert ip (now + 300)] ∧
      handle_error now (ConnError.tunnel (TunnelError.Timeout ip))
        = [Action.banInsert ip (now + 300)] := by
  refine ⟨fun h => ?_, fun h => ?_, ?_, ?_⟩
  · simp [connect_inbound, h]
  · simp [connect_inbound, Nat.not_lt.mpr h]
  · simp [handle_error, BAN_LENGTH]
  · simp [handle_error, BAN_LENGTH]

/-- Witness for C9: a ban entry expiring at instant 1 rejects a connect
at instant 0 and admits one at instant 2. -/
theorem ban_check_witness :
    (0 < 1 ∧ connect_inbound [] (some 1) 0 ⟨[], some 0, none, true, some 0⟩
        = ([], Except.error (ConnError.tunnel TunnelError.ConnAttemptFromBannedIP))) ∧
      (1 ≤ 2 ∧ connect_inbound [] (some 1) 2 ⟨[], some 0, none, true, some 0⟩
        = Tunnel.init_inbound [] ⟨[], some 0, none, true, some 0⟩) :=
  ⟨⟨by decide, (ban_check [] 1 0 ⟨[], some 0, none, true, some 0⟩ 0).1 (by decide)⟩,
    ⟨by decide, (ban_check [] 1 2 ⟨[], some 0, none, true, some 0⟩ 0).2.1 (by decide)⟩⟩

/-- One iteration of the legacy copy loop of src/lib.rs, characterized:
the written chunk is the freshly read bytes XORed with the keystream at
the cipher's current position (only the first `n` buffer bytes are
written), while the cipher handed to the next iteration has advanced by
the full buffer size 512, not by `n`. -/
theorem lib_read_write_cons (c : ChaCha20) (buffer : List Nat) (b : Nat)
    (bs : List Nat) (rest : List ReadRes)
    (hlen : (b :: bs).length ≤ 512) (hbuf : buffer.length = 512) :
    lib_read_write c buffer (ReadRes.bytes (b :: bs) :: rest)
      = applyBytes c.key c.nonce c.pos (b :: bs)
          :: lib_read_write ⟨c.key, c.nonce, c.pos + 512⟩
               (applyBytes c.key c.nonce c.pos ((b :: bs) ++ buffer.drop (b :: bs).length))
               rest := by
  have hfill : ((b :: bs) ++ buffer.drop (b :: bs).length).length = 512 := by
    simp only [List.length_append, List.length_drop, hbuf]
    omega
  have htake : (applyBytes c.key c.nonce c.pos ((b :: bs) ++ buffer.drop (b :: bs).length)).take
      (b :: bs).length = applyBytes c.key c.nonce c.pos (b :: bs) := by
    rw [applyBytes_append]
    rw [show (b :: bs).length = (applyBytes c.key c.nonce c.pos (b :: bs)).length from
      (applyBytes_length _ _ _ _).symm]
    exact List.take_left _ _
  simp only [lib_read_write, ChaCha20.apply_keystream, htake, hfill]

set_option maxRecDepth 1000000 in
/-- C10: the legacy `read_write` of src/lib.rs applies the keystream to
its whole 512-byte buffer on every nonempty read while writing only the
first `n` bytes, so its cipher advances by 512 per iteration; on the
read sequence of two 1-byte reads its output differs from that of
`Tunnel::read_write` with the same cipher parameters and input bytes. -/
theorem legacy_read_write_divergence :
    (∀ (c : ChaCha20) (buffer : List Nat) (b : Nat) (bs : List Nat) (rest : List ReadRes),
        (b :: bs).length ≤ 512 → buffer.length = 512 →
        lib_read_write c buffer (ReadRes.bytes (b :: bs) :: rest)
          = applyBytes c.key c.nonce c.pos (b :: bs)
              :: lib_read_write ⟨c.key, c.nonce, c.pos + 512⟩
                   (applyBytes c.key c.nonce c.pos
                     ((b :: bs) ++ buffer.drop (b :: bs).length)) rest) ∧
      (Tunnel.read_write (fun _ => true) true 0 [ChaCha20.new zeroKey zeroNonce]
            [ReadRes.bytes [0], ReadRes.bytes [0]]).1
        ≠ lib_read_write (ChaCha20.new zeroKey zeroNonce) (List.replicate 512 0)
            [ReadRes.bytes [0], ReadRes.bytes [0]] :=
  ⟨fun c buffer b bs rest hlen hbuf => lib_read_write_cons c buffer b bs rest hlen hbuf,
    by decide⟩

set_option maxRecDepth 1000000 in
/-- Witness for C10's structural conjunct at a concrete cipher, buffer
and read. -/
theorem legacy_read_write_divergence_witness :
    ([0] : List Nat).length ≤ 512 ∧ (List.replicate 512 0 : List Nat).length = 512 ∧
      lib_read_write (ChaCha20.new zeroKey zeroNonce) (List.replicate 512 0)
          [ReadRes.bytes [0]]
        = applyBytes zeroKey zeroNonce 0 [0]
            :: lib_read_write ⟨zeroKey, zeroNonce, 0 + 512⟩
                 (applyBytes zeroKey zeroNonce 0
                   ([0] ++ (List.replicate 512 0).drop 1)) [] :=
  ⟨by decide, by simp,
    (legacy_read_write_divergence.1 (ChaCha20.new zeroKey zeroNonce)
      (List.replicate 512 0) 0 [] [] (by decide) (by simp))⟩

end Veloxid
